import Mathlib

/-!
Verification development for the project_run fitness-tracking backend.

The core under verification is the run lifecycle (StartView / FinishView in
app_run/views.py), the telemetry metrics engine (app_run/utils.py), the
challenge rule evaluator (app_run/challenge_service.py), the artifact
proximity checker (app_run/utils.py) and position-ingest validation
(PositionSerializer in app_run/serializers.py, PositionViewSet.perform_create
in app_run/views.py).

Modelling conventions:
* Coordinates, distances, speeds and timestamps are rationals (Python floats
  and datetimes become exact arithmetic; timestamps are seconds since epoch,
  so datetime subtraction followed by total_seconds is plain subtraction).
* The geopy geodesic function is an external library boundary; every metric
  is parametrised by a kilometre-valued distance model `g`, and the `.meters`
  accessor of the same geodesic object is `1000 * g a b`.
* The record store (Django ORM) is a `DB` structure of lists; a queryset with
  no order_by is the list in insertion order; `order_by` is an explicit sort
  (SQLite places NULLs first ascending, last descending, which the
  `timeLe` / `laterTime` comparators reproduce with `none` smallest).
* Python's `round(x, n)` is rounding to n decimal places, `roundTo`.
-/

namespace ProjectRun

/-- Run lifecycle status, the `STATUS_CHOICES` of `app_run/models.py`:
`init`, `in_progress`, `finished`. -/
inductive RunStatus
  | init
  | in_progress
  | finished
  deriving DecidableEq, Repr

/-- A `Run` record (app_run/models.py).  The fields `run_time_seconds` and
`speed` are attested by the repository's serializers, challenge service and
model tests (the models.py snapshot omits them); only `run_time_seconds` is
read by the core paths verified here.  `distance` is in kilometres. -/
structure Run where
  id : ℕ
  athlete : ℕ
  status : RunStatus
  distance : ℚ
  run_time_seconds : ℤ
  deriving DecidableEq, Repr

/-- A `Position` record (app_run/models.py): owning run, coordinates, optional
capture timestamp.  The `speed` and `distance` fields are attested by
`PositionSerializer` and the model tests (defaults 0). -/
structure Position where
  run : ℕ
  latitude : ℚ
  longitude : ℚ
  date_time : Option ℚ
  speed : ℚ
  distance : ℚ
  deriving DecidableEq, Repr

/-- A `CollectibleItem` (artifacts/models.py), projected to the fields the
proximity checker fetches: `only("id", "latitude", "longitude")`. -/
structure CollectibleItem where
  id : ℕ
  latitude : ℚ
  longitude : ℚ
  deriving DecidableEq, Repr

/-- The record store: runs, positions (in insertion order), challenges as
(full_name, athlete) pairs, the collectible-item catalog and the athletes'
collected-items relation as (athlete, item id) pairs. -/
structure DB where
  runs : List Run
  positions : List Position
  challenges : List (String × ℕ)
  items : List CollectibleItem
  collected : List (ℕ × ℕ)
  deriving DecidableEq, Repr

/-- A geodesic distance model, kilometre-valued: the geopy boundary. -/
abbrev Geo : Type := ℚ × ℚ → ℚ × ℚ → ℚ

/-- Challenge label granted by `create_challenge_ten_runs`. -/
def ten_runs_name : String := "Сделай 10 Забегов!"

/-- Challenge label granted by `create_challenge_50_kilometers`. -/
def fifty_km_name : String := "Пробеги 50 километров!"

/-- Challenge label granted by `create_challenge_2_kilometers_in_10_minutes`. -/
def fast_2k_name : String := "2 километра за 10 минут!"

/-- `Run.objects.get(id=run_id)`: fetch one run by id. -/
def findRun (db : DB) (runId : ℕ) : Option Run :=
  db.runs.find? (fun x => x.id == runId)

/-- `run.save()`: persist the record with this primary key. -/
def saveRun (db : DB) (r : Run) : DB :=
  { db with runs := db.runs.map (fun x => if x.id = r.id then r else x) }

/-- `run.positions.all()` with no order_by: the run's positions in insertion
order. -/
def positionsOf (db : DB) (runId : ℕ) : List Position :=
  db.positions.filter (fun p => p.run == runId)

/-- `Run.objects.filter(athlete=..., status=FINISHED)`. -/
def finishedOf (db : DB) (athlete : ℕ) : List Run :=
  db.runs.filter (fun r => decide (r.athlete = athlete ∧ r.status = RunStatus.finished))

/-- Python's `round(q, n)`: round to n decimal places. -/
def roundTo (n : ℕ) (q : ℚ) : ℚ :=
  (⌊q * 10 ^ n + 1 / 2⌋ : ℤ) / 10 ^ n

/-- The accumulation loop of `calculate_run_distance` (app_run/utils.py):
sum of `g` over consecutive pairs of the list. -/
def pairwiseSum (g : Geo) : List Position → ℚ
  | p1 :: p2 :: rest =>
      g (p1.latitude, p1.longitude) (p2.latitude, p2.longitude) + pairwiseSum g (p2 :: rest)
  | _ => 0

/-- `calculate_run_distance` (app_run/utils.py): 0.0 for fewer than two
positions, otherwise the summed consecutive geodesic kilometres rounded to 3
decimal places. -/
def calculate_run_distance (g : Geo) (positions : List Position) : ℚ :=
  if positions.length < 2 then 0 else roundTo 3 (pairwiseSum g positions)

/-- `Challenge.objects.get_or_create(full_name=..., athlete=...)`: append the
pair only when absent. -/
def getOrCreate (full_name : String) (athlete : ℕ)
    (challenges : List (String × ℕ)) : List (String × ℕ) :=
  if (full_name, athlete) ∈ challenges then challenges
  else challenges ++ [(full_name, athlete)]

/-- `create_challenge_ten_runs` (app_run/challenge_service.py): grant the
ten-runs challenge when the queryset count is exactly 10. -/
def create_challenge_ten_runs (athlete : ℕ) (queryset : List Run)
    (challenges : List (String × ℕ)) : List (String × ℕ) :=
  if queryset.length = 10 then getOrCreate ten_runs_name athlete challenges
  else challenges

/-- `create_challenge_50_kilometers` (app_run/challenge_service.py): grant the
fifty-kilometre challenge when the summed distance of the queryset is at least
50 (the aggregate of an empty queryset is `None`, replaced by 0 by `or 0`). -/
def create_challenge_50_kilometers (athlete : ℕ) (queryset : List Run)
    (challenges : List (String × ℕ)) : List (String × ℕ) :=
  if 50 ≤ (queryset.map Run.distance).sum then
    getOrCreate fifty_km_name athlete challenges
  else challenges

/-- `create_challenge_2_kilometers_in_10_minutes`
(app_run/challenge_service.py): grant the fast-2K challenge when the run's
distance is at least 2 km and `run_time_seconds / 60` is at most 10. -/
def create_challenge_2_kilometers_in_10_minutes (athlete : ℕ) (run : Run)
    (challenges : List (String × ℕ)) : List (String × ℕ) :=
  if 2 ≤ run.distance ∧ (run.run_time_seconds : ℚ) / 60 ≤ 10 then
    getOrCreate fast_2k_name athlete challenges
  else challenges

/-- `user.items.add(item)`: the many-to-many collected-items relation has set
semantics, an already present pair is left alone. -/
def addCollected (athlete itemId : ℕ) (collected : List (ℕ × ℕ)) : List (ℕ × ℕ) :=
  if (athlete, itemId) ∈ collected then collected else collected ++ [(athlete, itemId)]

/-- `check_and_collect_artifacts` (app_run/utils.py): walk the whole item
catalog and add every item whose geodesic distance in metres from the reported
point is at most 100 to the user's collected items. -/
def check_and_collect_artifacts (g : Geo) (items : List CollectibleItem)
    (user : ℕ) (latitude longitude : ℚ)
    (collected : List (ℕ × ℕ)) : List (ℕ × ℕ) :=
  match items with
  | [] => collected
  | item :: rest =>
      check_and_collect_artifacts g rest user latitude longitude
        (if 1000 * g (latitude, longitude) (item.latitude, item.longitude) ≤ 100 then
          addCollected user item.id collected
        else collected)

/-- `StartView.post` (app_run/views.py): 404 when the run is absent, 400 when
its status is not `init`, otherwise set `in_progress`, save, and return 200. -/
def startRun (db : DB) (runId : ℕ) : ℕ × DB :=
  match findRun db runId with
  | none => (404, db)
  | some run =>
      if run.status = RunStatus.init then
        (200, saveRun db { run with status := RunStatus.in_progress })
      else (400, db)

/-- The success branch of `FinishView.post` (app_run/views.py): set status
`finished` and save; read `run.positions.all()` (no order_by) and persist the
recomputed distance; then read the athlete's finished runs and apply
`create_challenge_ten_runs` and `create_challenge_50_kilometers`. -/
def finishState (g : Geo) (db : DB) (run : Run) (runId : ℕ) : DB :=
  let run1 := { run with status := RunStatus.finished }
  let db1 := saveRun db run1
  let all_positions := positionsOf db1 runId
  let run2 := { run1 with distance := calculate_run_distance g all_positions }
  let db2 := saveRun db1 run2
  let finished_run := finishedOf db2 run.athlete
  let ch1 := create_challenge_ten_runs run.athlete finished_run db2.challenges
  let ch2 := create_challenge_50_kilometers run.athlete finished_run ch1
  { db2 with challenges := ch2 }

/-- `FinishView.post` (app_run/views.py): 404 when the run is absent, 400 when
its status is not `in_progress`, otherwise the success branch `finishState`
with a 200 response. -/
def finishRun (g : Geo) (db : DB) (runId : ℕ) : ℕ × DB :=
  match findRun db runId with
  | none => (404, db)
  | some run =>
      if run.status = RunStatus.in_progress then (200, finishState g db run runId)
      else (400, db)

/-- `PositionSerializer` validation (app_run/serializers.py): the referenced
run must exist (PK field); the explicitly declared `date_time`
`DateTimeField` (serializers.py:241) is required and non-null — an explicit
serializer field does not inherit the model's `null=True` — so a request
without a capture timestamp is rejected; latitude must lie in [-90, 90],
longitude in [-180, 180], and the run's status must be `in_progress`. -/
def validatePosition (db : DB) (p : Position) : Bool :=
  match findRun db p.run with
  | none => false
  | some r =>
      p.date_time.isSome
        && decide (-90 ≤ p.latitude ∧ p.latitude ≤ 90)
        && decide (-180 ≤ p.longitude ∧ p.longitude ≤ 180)
        && decide (r.status = RunStatus.in_progress)

/-- `PositionViewSet.perform_create` (app_run/views.py): resolve the run's
athlete from the validated data, run the artifact proximity check, then save
the position exactly as validated. -/
def perform_create (g : Geo) (db : DB) (p : Position) : DB :=
  match findRun db p.run with
  | some r =>
      { db with
        collected :=
          check_and_collect_artifacts g db.items r.athlete p.latitude p.longitude db.collected,
        positions := db.positions ++ [p] }
  | none => db

/-- The position-ingest endpoint: serializer validation gates
`perform_create`; an invalid payload is rejected with a 400-class error
(`none`). -/
def createPosition (g : Geo) (db : DB) (p : Position) : Option DB :=
  if validatePosition db p = true then some (perform_create g db p) else none

/-- Strict "later capture timestamp" used by `order_by("-date_time")`:
a missing timestamp sorts below every present one. -/
def laterTime : Option ℚ → Option ℚ → Bool
  | some a, some b => decide (b < a)
  | some _, none => true
  | _, _ => false

/-- `run.positions.order_by("-date_time").first()`: an element whose
timestamp is maximal, with missing timestamps smallest. -/
def latestByTime : List Position → Option Position
  | [] => none
  | p :: rest =>
      match latestByTime rest with
      | none => some p
      | some q => if laterTime q.date_time p.date_time then some q else some p

/-- `calculate_speed` (app_run/utils.py): 0.0 when there is no prior position
or the latest one has no timestamp; otherwise the geodesic metres to the new
point divided by the elapsed seconds, rounded to 2 decimals, with a guard
returning 0.0 when the elapsed time is not positive. -/
def calculate_speed (g : Geo) (db : DB) (runId : ℕ) (current_time : ℚ)
    (latitude longitude : ℚ) : ℚ :=
  match latestByTime (positionsOf db runId) with
  | none => 0
  | some prev =>
      match prev.date_time with
      | none => 0
      | some pt =>
          let dist := 1000 * g (prev.latitude, prev.longitude) (latitude, longitude)
          let time_diff := current_time - pt
          if 0 < time_diff then roundTo 2 (dist / time_diff) else 0

/-- Non-strict capture-timestamp order used by `order_by("date_time")`:
missing timestamps first. -/
def timeLe : Option ℚ → Option ℚ → Bool
  | none, _ => true
  | some _, none => false
  | some a, some b => decide (a ≤ b)

/-- Insertion step of the timestamp sort. -/
def insertByTime (p : Position) : List Position → List Position
  | [] => [p]
  | q :: rest =>
      if timeLe p.date_time q.date_time then p :: q :: rest else q :: insertByTime p rest

/-- `order_by("date_time")`: the position list sorted by capture timestamp. -/
def sortByTime : List Position → List Position
  | [] => []
  | p :: rest => insertByTime p (sortByTime rest)

/-- `calculate_cumulative_distance` (app_run/utils.py): sum the consecutive
distances of the timestamp-sorted stored positions, add the leg from the last
stored position to the current point, and round to 2 decimals; 0.0 with no
stored positions. -/
def calculate_cumulative_distance (g : Geo) (db : DB) (runId : ℕ)
    (latitude longitude : ℚ) : ℚ :=
  let positions := sortByTime (positionsOf db runId)
  match positions.getLast? with
  | none => 0
  | some lastPos =>
      roundTo 2 (pairwiseSum g positions +
        g (lastPos.latitude, lastPos.longitude) (latitude, longitude))

/-- Modelled from the spec: the route distance over the run's position history
read in capture-timestamp order via an explicit sort at read time ("positions
for a given run must be read in capture-timestamp order for every
distance/duration computation — enforced by explicit sort at read time").
Used to compare the finish-time recomputation against the spec's reading. -/
def specTimestampOrderedDistance (g : Geo) (db : DB) (runId : ℕ) : ℚ :=
  calculate_run_distance g (sortByTime (positionsOf db runId))

/-- Concrete kilometre-valued distance model used for closed evaluations: the
taxicab metric, a nonnegative, symmetric, reflexive instance of the geodesic
boundary. -/
def gTest : Geo := fun a b => |a.1 - b.1| + |a.2 - b.2|

/-- The run record stored and mutated by the finish success branch: status
finished and distance recomputed from the run's position history (equal by
unfolding to the record the second save of `finishState` persists). -/
def runFinal (g : Geo) (db : DB) (run : Run) (runId : ℕ) : Run :=
  { run with
    status := RunStatus.finished
    distance := calculate_run_distance g (positionsOf db runId) }

/-! Concrete records and stores used by the closed evaluations below: small
runs, position histories and item-free stores exercising each operation. -/

def rW0 : Run := { id := 0, athlete := 0, status := RunStatus.init, distance := 0, run_time_seconds := 0 }

def rW1 : Run := { id := 1, athlete := 0, status := RunStatus.in_progress, distance := 0, run_time_seconds := 0 }

def dbW : DB := { runs := [rW0, rW1], positions := [], challenges := [], items := [], collected := [] }

def pW : Position := { run := 1, latitude := 45, longitude := 45, date_time := none, speed := 0, distance := 0 }

def pWT : Position := { run := 1, latitude := 45, longitude := 45, date_time := some 100, speed := 0, distance := 0 }

def exR1 : Run := { id := 0, athlete := 3, status := RunStatus.in_progress, distance := 0, run_time_seconds := 300 }

def exQ0 : Position := { run := 0, latitude := 0, longitude := 0, date_time := some 0, speed := 0, distance := 0 }

def exQ1 : Position := { run := 0, latitude := 3, longitude := 0, date_time := some 60, speed := 0, distance := 0 }

def exDb1 : DB := { runs := [exR1], positions := [exQ0, exQ1], challenges := [], items := [], collected := [] }

def exR2 : Run := { id := 0, athlete := 5, status := RunStatus.in_progress, distance := 0, run_time_seconds := 0 }

def pa2 : Position := { run := 0, latitude := 0, longitude := 0, date_time := some 2, speed := 0, distance := 0 }

def pb2 : Position := { run := 0, latitude := 10, longitude := 0, date_time := some 1, speed := 0, distance := 0 }

def pc2 : Position := { run := 0, latitude := 0, longitude := 1, date_time := some 3, speed := 0, distance := 0 }

def exDb2 : DB := { runs := [exR2], positions := [pa2, pb2, pc2], challenges := [], items := [], collected := [] }

def exR3 : Run := { id := 0, athlete := 7, status := RunStatus.in_progress, distance := 0, run_time_seconds := 0 }

def exDb3 : DB := { runs := [exR3], positions := [exQ0], challenges := [], items := [], collected := [] }

def wfRun (k : ℕ) : Run := { id := k, athlete := 2, status := RunStatus.finished, distance := 6, run_time_seconds := 0 }

def wTen : Run := { id := 9, athlete := 2, status := RunStatus.in_progress, distance := 0, run_time_seconds := 0 }

def w10db : DB :=
  { runs := [wfRun 0, wfRun 1, wfRun 2, wfRun 3, wfRun 4, wfRun 5, wfRun 6, wfRun 7, wfRun 8, wTen]
    positions := []
    challenges := []
    items := []
    collected := [] }

def tenF : List Run := List.replicate 10 rW0

theorem findRun_id {db : DB} {i : ℕ} {r : Run} (h : findRun db i = some r) : r.id = i := by
  unfold findRun at h
  have := List.find?_some h
  simpa using this

theorem findRun_mem {db : DB} {i : ℕ} {r : Run} (h : findRun db i = some r) : r ∈ db.runs :=
  List.mem_of_find?_eq_some h

theorem find?_map_replace (l : List Run) (i : ℕ) (r0 r : Run)
    (h : l.find? (fun x => x.id == i) = some r0) (hid : r.id = i) :
    (l.map (fun x => if x.id = i then r else x)).find? (fun x => x.id == i) = some r := by
  induction l with
  | nil => simp at h
  | cons a l ih =>
      by_cases ha : a.id = i
      · simp only [List.map, if_pos ha]
        exact List.find?_cons_of_pos _ (by simp [hid])
      · rw [List.find?_cons_of_neg _ (by simp [ha])] at h
        simp only [List.map, if_neg ha]
        rw [List.find?_cons_of_neg _ (by simp [ha])]
        exact ih h

theorem findRun_saveRun {db : DB} {i : ℕ} {r0 : Run} (r : Run)
    (h : findRun db i = some r0) (hid : r.id = i) :
    findRun (saveRun db r) i = some r := by
  unfold findRun saveRun at *
  simp only [hid]
  exact find?_map_replace db.runs i r0 r h hid

theorem saveRun_saveRun_runs (db : DB) (a b : Run) (hid : b.id = a.id) :
    (saveRun (saveRun db a) b).runs
      = db.runs.map (fun x => if x.id = a.id then b else x) := by
  simp only [saveRun, List.map_map]
  apply List.map_congr_left
  intro x _
  by_cases h : x.id = a.id
  · simp [Function.comp, h, hid]
  · simp [Function.comp, h, hid]

theorem roundTo_nonneg (n : ℕ) (q : ℚ) (h : 0 ≤ q) : 0 ≤ roundTo n q := by
  unfold roundTo
  apply div_nonneg
  · have : (0 : ℤ) ≤ ⌊q * 10 ^ n + 1 / 2⌋ := by
      rw [Int.le_floor]
      push_cast
      positivity
    exact_mod_cast this
  · positivity

theorem pairwiseSum_nonneg (g : Geo) (hg : ∀ a b, 0 ≤ g a b) :
    ∀ ps : List Position, 0 ≤ pairwiseSum g ps
  | [] => le_refl 0
  | [_] => le_refl 0
  | p1 :: p2 :: rest => by
      have ih := pairwiseSum_nonneg g hg (p2 :: rest)
      unfold pairwiseSum
      exact add_nonneg (hg _ _) ih

theorem pairwiseSum_eq_zip (g : Geo) :
    ∀ ps : List Position, pairwiseSum g ps
      = ((ps.zip ps.tail).map
          (fun q => g (q.1.latitude, q.1.longitude) (q.2.latitude, q.2.longitude))).sum
  | [] => by simp [pairwiseSum]
  | [p] => by simp [pairwiseSum]
  | p1 :: p2 :: rest => by
      have ih := pairwiseSum_eq_zip g (p2 :: rest)
      simp only [pairwiseSum, ih, List.tail_cons, List.zip_cons_cons, List.map_cons, List.sum_cons]

theorem calculate_run_distance_nonneg (g : Geo) (hg : ∀ a b, 0 ≤ g a b)
    (ps : List Position) : 0 ≤ calculate_run_distance g ps := by
  unfold calculate_run_distance
  split
  · exact le_refl 0
  · exact roundTo_nonneg _ _ (pairwiseSum_nonneg g hg ps)

theorem mem_getOrCreate_iff (n : String) (a : ℕ) (ch : List (String × ℕ)) (c : String × ℕ) :
    c ∈ getOrCreate n a ch ↔ c ∈ ch ∨ c = (n, a) := by
  unfold getOrCreate
  split
  · constructor
    · exact Or.inl
    · rintro (h | rfl) <;> assumption
  · simp

theorem count_getOrCreate_le (n : String) (a : ℕ) (ch : List (String × ℕ)) :
    (getOrCreate n a ch).count (n, a) ≤ max 1 (ch.count (n, a)) := by
  unfold getOrCreate
  split
  · exact le_max_right _ _
  · rename_i hnm
    rw [List.count_append]
    have h0 : ch.count (n, a) = 0 := by
      rw [List.count_eq_zero]
      exact hnm
    simp [h0]

theorem mem_create_ten_iff (a : ℕ) (F : List Run) (ch : List (String × ℕ)) (c : String × ℕ) :
    c ∈ create_challenge_ten_runs a F ch ↔ c ∈ ch ∨ (c = (ten_runs_name, a) ∧ F.length = 10) := by
  unfold create_challenge_ten_runs
  split
  · rename_i h
    rw [mem_getOrCreate_iff]
    tauto
  · rename_i h
    tauto

theorem mem_create_fifty_iff (a : ℕ) (F : List Run) (ch : List (String × ℕ)) (c : String × ℕ) :
    c ∈ create_challenge_50_kilometers a F ch
      ↔ c ∈ ch ∨ (c = (fifty_km_name, a) ∧ 50 ≤ (F.map Run.distance).sum) := by
  unfold create_challenge_50_kilometers
  split
  · rename_i h
    rw [mem_getOrCreate_iff]
    tauto
  · rename_i h
    tauto

theorem mem_addCollected_iff (u i : ℕ) (c : List (ℕ × ℕ)) (pr : ℕ × ℕ) :
    pr ∈ addCollected u i c ↔ pr ∈ c ∨ pr = (u, i) := by
  unfold addCollected
  split
  · constructor
    · exact Or.inl
    · rintro (h | rfl) <;> assumption
  · simp

theorem mem_collect_iff (g : Geo) (user : ℕ) (lat lon : ℚ) (pr : ℕ × ℕ) :
    ∀ (items : List CollectibleItem) (c : List (ℕ × ℕ)),
      pr ∈ check_and_collect_artifacts g items user lat lon c
        ↔ pr ∈ c ∨ (∃ it ∈ items, pr = (user, it.id)
            ∧ 1000 * g (lat, lon) (it.latitude, it.longitude) ≤ 100)
  | [], c => by simp [check_and_collect_artifacts]
  | item :: rest, c => by
      have ih := mem_collect_iff g user lat lon pr rest
      unfold check_and_collect_artifacts
      rw [ih]
      by_cases hd : 1000 * g (lat, lon) (item.latitude, item.longitude) ≤ 100
      · rw [if_pos hd, mem_addCollected_iff]
        constructor
        · rintro ((h | rfl) | ⟨it, hit, rfl, hw⟩)
          · exact Or.inl h
          · exact Or.inr ⟨item, by simp, rfl, hd⟩
          · exact Or.inr ⟨it, by simp [hit], rfl, hw⟩
        · rintro (h | ⟨it, hit, rfl, hw⟩)
          · exact Or.inl (Or.inl h)
          · rcases List.mem_cons.mp hit with rfl | hit
            · exact Or.inl (Or.inr rfl)
            · exact Or.inr ⟨it, hit, rfl, hw⟩
      · rw [if_neg hd]
        constructor
        · rintro (h | ⟨it, hit, rfl, hw⟩)
          · exact Or.inl h
          · exact Or.inr ⟨it, by simp [hit], rfl, hw⟩
        · rintro (h | ⟨it, hit, rfl, hw⟩)
          · exact Or.inl h
          · rcases List.mem_cons.mp hit with rfl | hit
            · exact absurd hw hd
            · exact Or.inr ⟨it, hit, rfl, hw⟩

theorem collect_noop (g : Geo) (user : ℕ) (lat lon : ℚ) :
    ∀ (items : List CollectibleItem) (c : List (ℕ × ℕ)),
      (∀ it ∈ items, 1000 * g (lat, lon) (it.latitude, it.longitude) ≤ 100 → (user, it.id) ∈ c) →
      check_and_collect_artifacts g items user lat lon c = c
  | [], c => by intro _; rfl
  | item :: rest, c => by
      intro h
      unfold check_and_collect_artifacts
      by_cases hd : 1000 * g (lat, lon) (item.latitude, item.longitude) ≤ 100
      · rw [if_pos hd]
        have hmem : (user, item.id) ∈ c := h item (by simp) hd
        have : addCollected user item.id c = c := by
          unfold addCollected
          rw [if_pos hmem]
        rw [this]
        exact collect_noop g user lat lon rest c (fun it hit => h it (by simp [hit]))
      · rw [if_neg hd]
        exact collect_noop g user lat lon rest c (fun it hit => h it (by simp [hit]))

theorem latestByTime_mem : ∀ (ps : List Position) (q : Position),
    latestByTime ps = some q → q ∈ ps
  | [], q => by simp [latestByTime]
  | p :: rest, q => by
      intro h
      unfold latestByTime at h
      rcases hr : latestByTime rest with _ | q0
      · rw [hr] at h
        simp only [Option.some_inj] at h
        rw [← h]
        exact List.mem_cons_self _ _
      · rw [hr] at h
        dsimp only [] at h
        by_cases hc : laterTime q0.date_time p.date_time = true
        · rw [if_pos hc] at h
          have hq := latestByTime_mem rest q0 hr
          simp only [Option.some_inj] at h
          rw [← h]
          exact List.mem_cons_of_mem _ hq
        · rw [if_neg hc] at h
          simp only [Option.some_inj] at h
          rw [← h]
          exact List.mem_cons_self _ _

theorem run_eq_of_id_eq {l : List Run} (hnd : (l.map Run.id).Nodup)
    {x y : Run} (hx : x ∈ l) (hy : y ∈ l) (h : Run.id x = Run.id y) : x = y :=
  List.inj_on_of_nodup_map hnd hx hy h

theorem mem_map_replace {l : List Run} {i : ℕ} {r2 r' : Run}
    (h : r' ∈ l.map (fun x => if x.id = i then r2 else x)) :
    ∃ x ∈ l, (x.id = i ∧ r' = r2) ∨ (x.id ≠ i ∧ r' = x) := by
  rcases List.mem_map.mp h with ⟨x, hx, hfx⟩
  by_cases hxi : x.id = i
  · exact ⟨x, hx, Or.inl ⟨hxi, by rw [← hfx, if_pos hxi]⟩⟩
  · exact ⟨x, hx, Or.inr ⟨hxi, by rw [← hfx, if_neg hxi]⟩⟩

theorem filter_length_replace (P : Run → Bool) (i : ℕ) (r r2 : Run)
    (l : List Run) (hnd : (l.map Run.id).Nodup) (hmem : r ∈ l) (hid : r.id = i)
    (hPr : P r = false) (hPr2 : P r2 = true) :
    ((l.map (fun x => if x.id = i then r2 else x)).filter P).length
      = (l.filter P).length + 1 := by
  obtain ⟨s, t, rfl⟩ := List.append_of_mem hmem
  have hids : (s.map Run.id ++ Run.id r :: t.map Run.id).Nodup := by simpa using hnd
  have hnotin : Run.id r ∉ s.map Run.id ++ t.map Run.id := (List.nodup_cons.mp (List.nodup_middle.mp hids)).1
  have hs : ∀ x ∈ s, x.id ≠ i := by
    intro x hx hxi
    apply hnotin
    apply List.mem_append_left
    rw [hid, ← hxi]
    exact List.mem_map_of_mem Run.id hx
  have ht : ∀ x ∈ t, x.id ≠ i := by
    intro x hx hxi
    apply hnotin
    apply List.mem_append_right
    rw [hid, ← hxi]
    exact List.mem_map_of_mem Run.id hx
  have hms : s.map (fun x => if x.id = i then r2 else x) = s := by
    rw [List.map_congr_left (fun x hx => if_neg (hs x hx))]
    exact List.map_id s
  have hmt : t.map (fun x => if x.id = i then r2 else x) = t := by
    rw [List.map_congr_left (fun x hx => if_neg (ht x hx))]
    exact List.map_id t
  rw [List.map_append, List.map_cons, hms, hmt, if_pos hid]
  simp [List.filter_append, List.filter_cons, hPr, hPr2]
  omega

theorem finishState_positions (g : Geo) (db : DB) (run : Run) (i : ℕ) :
    (finishState g db run i).positions = db.positions := rfl

theorem finishState_collected (g : Geo) (db : DB) (run : Run) (i : ℕ) :
    (finishState g db run i).collected = db.collected := rfl

theorem finishState_runs (g : Geo) (db : DB) (run : Run) (i : ℕ) (hid : run.id = i) :
    (finishState g db run i).runs
      = db.runs.map (fun x => if x.id = i then runFinal g db run i else x) := by
  subst hid
  exact saveRun_saveRun_runs db { run with status := RunStatus.finished }
    (runFinal g db run run.id) rfl

theorem finishState_challenges (g : Geo) (db : DB) (run : Run) (i : ℕ) :
    (finishState g db run i).challenges
      = create_challenge_50_kilometers run.athlete
          (finishedOf (finishState g db run i) run.athlete)
          (create_challenge_ten_runs run.athlete
            (finishedOf (finishState g db run i) run.athlete) db.challenges) := rfl

theorem finishRun_found_in_progress {g : Geo} {db : DB} {i : ℕ} {run : Run}
    (hfind : findRun db i = some run) (hst : run.status = RunStatus.in_progress) :
    finishRun g db i = (200, finishState g db run i) := by
  unfold finishRun
  rw [hfind]
  dsimp only
  rw [if_pos hst]

theorem finishRun_found_not_in_progress {g : Geo} {db : DB} {i : ℕ} {run : Run}
    (hfind : findRun db i = some run) (hst : ¬ run.status = RunStatus.in_progress) :
    finishRun g db i = (400, db) := by
  unfold finishRun
  rw [hfind]
  dsimp only
  rw [if_neg hst]

theorem finishRun_not_found {g : Geo} {db : DB} {i : ℕ}
    (h : findRun db i = none) : finishRun g db i = (404, db) := by
  unfold finishRun
  rw [h]

theorem startRun_found_init {db : DB} {i : ℕ} {run : Run}
    (hfind : findRun db i = some run) (hst : run.status = RunStatus.init) :
    startRun db i = (200, saveRun db { run with status := RunStatus.in_progress }) := by
  unfold startRun
  rw [hfind]
  dsimp only
  rw [if_pos hst]

theorem startRun_found_not_init {db : DB} {i : ℕ} {run : Run}
    (hfind : findRun db i = some run) (hst : ¬ run.status = RunStatus.init) :
    startRun db i = (400, db) := by
  unfold startRun
  rw [hfind]
  dsimp only
  rw [if_neg hst]

theorem startRun_not_found {db : DB} {i : ℕ}
    (h : findRun db i = none) : startRun db i = (404, db) := by
  unfold startRun
  rw [h]

theorem mem_getOrCreate_self (n : String) (a : ℕ) (ch : List (String × ℕ)) :
    (n, a) ∈ getOrCreate n a ch :=
  (mem_getOrCreate_iff n a ch (n, a)).mpr (Or.inr rfl)

theorem getOrCreate_idem (n : String) (a : ℕ) (ch : List (String × ℕ)) :
    getOrCreate n a (getOrCreate n a ch) = getOrCreate n a ch := by
  show (if (n, a) ∈ getOrCreate n a ch then getOrCreate n a ch
    else getOrCreate n a ch ++ [(n, a)]) = getOrCreate n a ch
  rw [if_pos (mem_getOrCreate_self n a ch)]

theorem gTest_nonneg : ∀ a b, 0 ≤ gTest a b := fun _ _ =>
  add_nonneg (abs_nonneg _) (abs_nonneg _)

/-- C5: the route distance of a position sequence is the sum of pairwise
geodesic distances between consecutive points in kilometres rounded to 3
decimal places; it is exactly 0 for fewer than 2 positions, and nonnegative
whenever the geodesic model is. -/
theorem route_distance_spec (g : Geo) (hg : ∀ a b, 0 ≤ g a b) (ps : List Position) :
    (2 ≤ ps.length → calculate_run_distance g ps
      = roundTo 3 (((ps.zip ps.tail).map
          (fun q => g (q.1.latitude, q.1.longitude) (q.2.latitude, q.2.longitude))).sum))
  ∧ (ps.length < 2 → calculate_run_distance g ps = 0)
  ∧ 0 ≤ calculate_run_distance g ps := by
  refine ⟨?_, ?_, calculate_run_distance_nonneg g hg ps⟩
  · intro h
    unfold calculate_run_distance
    rw [if_neg (by omega), pairwiseSum_eq_zip]
  · intro h
    unfold calculate_run_distance
    rw [if_pos h]

/-- C6: the ten-finished-runs challenge is present after evaluation iff it was
already present or the finished-run count is exactly 10; at any other count
the rule changes nothing; the rule is idempotent; and it never produces a
second copy of the challenge. -/
theorem ten_runs_challenge_exact_and_unique (athlete : ℕ) (F : List Run)
    (ch : List (String × ℕ)) :
    ((ten_runs_name, athlete) ∈ create_challenge_ten_runs athlete F ch
      ↔ (ten_runs_name, athlete) ∈ ch ∨ F.length = 10)
  ∧ (F.length ≠ 10 → create_challenge_ten_runs athlete F ch = ch)
  ∧ create_challenge_ten_runs athlete F (create_challenge_ten_runs athlete F ch)
      = create_challenge_ten_runs athlete F ch
  ∧ (create_challenge_ten_runs athlete F ch).count (ten_runs_name, athlete)
      ≤ max 1 (ch.count (ten_runs_name, athlete)) := by
  refine ⟨?_, ?_, ?_, ?_⟩
  · rw [mem_create_ten_iff]
    tauto
  · intro h
    unfold create_challenge_ten_runs
    rw [if_neg h]
  · unfold create_challenge_ten_runs
    by_cases h : F.length = 10
    · rw [if_pos h, if_pos h, getOrCreate_idem]
    · rw [if_neg h, if_neg h]
  · unfold create_challenge_ten_runs
    by_cases h : F.length = 10
    · rw [if_pos h]
      exact count_getOrCreate_le ten_runs_name athlete ch
    · rw [if_neg h]
      exact le_max_right _ _

/-- C7: the artifact collect operation adds to the collected-items relation
exactly the pairs (athlete, item) for catalog items within 100 metres of the
reported point (inclusive), leaves everything else as it was, and running the
whole collection again changes nothing. -/
theorem collect_artifacts_within_radius (g : Geo) (items : List CollectibleItem)
    (user : ℕ) (lat lon : ℚ) (collected : List (ℕ × ℕ)) :
    (∀ pr : ℕ × ℕ, pr ∈ check_and_collect_artifacts g items user lat lon collected
      ↔ pr ∈ collected ∨ (∃ it ∈ items, pr = (user, it.id)
          ∧ 1000 * g (lat, lon) (it.latitude, it.longitude) ≤ 100))
  ∧ check_and_collect_artifacts g items user lat lon
      (check_and_collect_artifacts g items user lat lon collected)
      = check_and_collect_artifacts g items user lat lon collected := by
  refine ⟨fun pr => mem_collect_iff g user lat lon pr items collected, ?_⟩
  apply collect_noop
  intro it hit hw
  exact (mem_collect_iff g user lat lon (user, it.id) items collected).mpr
    (Or.inr ⟨it, hit, rfl, hw⟩)

/-- C9: the instantaneous speed is 0 when the run has no timestamped position;
for a latest timestamped position it is 0 when the elapsed time is not
positive and otherwise the geodesic metres divided by the elapsed seconds
rounded to 2 decimals; and it is never negative when the geodesic model is
nonnegative. -/
theorem speed_guards_and_formula (g : Geo) (hg : ∀ a b, 0 ≤ g a b)
    (db : DB) (i : ℕ) (t lat lon : ℚ) :
    ((∀ p ∈ positionsOf db i, p.date_time = none) → calculate_speed g db i t lat lon = 0)
  ∧ (∀ prev pt, latestByTime (positionsOf db i) = some prev → prev.date_time = some pt →
      (t - pt ≤ 0 → calculate_speed g db i t lat lon = 0)
      ∧ (0 < t - pt → calculate_speed g db i t lat lon
          = roundTo 2 (1000 * g (prev.latitude, prev.longitude) (lat, lon) / (t - pt))))
  ∧ 0 ≤ calculate_speed g db i t lat lon := by
  refine ⟨?_, ?_, ?_⟩
  · intro h
    unfold calculate_speed
    rcases hr : latestByTime (positionsOf db i) with _ | prev
    · rfl
    · have hnone := h prev (latestByTime_mem _ prev hr)
      dsimp only
      rw [hnone]
  · intro prev pt hr hpt
    constructor
    · intro hle
      unfold calculate_speed
      rw [hr]
      dsimp only
      rw [hpt]
      dsimp only
      rw [if_neg (by linarith)]
    · intro hlt
      unfold calculate_speed
      rw [hr]
      dsimp only
      rw [hpt]
      dsimp only
      rw [if_pos hlt]
  · unfold calculate_speed
    rcases hr : latestByTime (positionsOf db i) with _ | prev
    · exact le_refl 0
    · dsimp only
      rcases hpt : prev.date_time with _ | pt
      · exact le_refl 0
      · dsimp only
        by_cases hlt : 0 < t - pt
        · rw [if_pos hlt]
          apply roundTo_nonneg
          apply div_nonneg
          · have := hg (prev.latitude, prev.longitude) (lat, lon)
            linarith
          · linarith
        · rw [if_neg hlt]

/-- C8 (amended): position creation succeeds exactly when the target run
exists with status in_progress, a capture timestamp is supplied (the
explicitly declared DateTimeField is required and non-null), and the
coordinates are in range (latitude in [-90, 90], longitude in [-180, 180]);
any violation is rejected, and on success the position is stored. -/
theorem position_validation_gate (g : Geo) (db : DB) (p : Position) (r : Run)
    (hfind : findRun db p.run = some r) :
    ((createPosition g db p).isSome = true
      ↔ r.status = RunStatus.in_progress ∧ p.date_time ≠ none
          ∧ -90 ≤ p.latitude ∧ p.latitude ≤ 90
          ∧ -180 ≤ p.longitude ∧ p.longitude ≤ 180)
  ∧ (∀ db', createPosition g db p = some db' → db'.positions = db.positions ++ [p]) := by
  have hval : validatePosition db p = true
      ↔ (r.status = RunStatus.in_progress ∧ p.date_time ≠ none
          ∧ -90 ≤ p.latitude ∧ p.latitude ≤ 90
          ∧ -180 ≤ p.longitude ∧ p.longitude ≤ 180) := by
    unfold validatePosition
    rw [hfind]
    simp only [Bool.and_eq_true, decide_eq_true_eq, Option.isSome_iff_ne_none]
    tauto
  constructor
  · unfold createPosition
    by_cases hv : validatePosition db p = true
    · rw [if_pos hv]
      simpa using hval.mp hv
    · rw [if_neg hv]
      simp only [Option.isSome_none, Bool.false_eq_true, false_iff]
      intro hc
      exact hv (hval.mpr hc)
  · intro db' h
    unfold createPosition at h
    by_cases hv : validatePosition db p = true
    · rw [if_pos hv] at h
      have hdb : perform_create g db p = db' := by
        injection h
      rw [← hdb]
      unfold perform_create
      rw [hfind]
    · rw [if_neg hv] at h
      cases h

/-- C3 (amended): a successfully ingested position passes the run-status gate,
triggers the artifact proximity check, and is then persisted exactly as
validated; runs and challenges are untouched, and no speed or cumulative
distance is recomputed on the stored record. -/
theorem ingest_appends_position_unchanged (g : Geo) (db : DB) (p : Position)
    (h : validatePosition db p = true) :
    ∃ db', createPosition g db p = some db'
      ∧ db'.positions = db.positions ++ [p]
      ∧ db'.runs = db.runs
      ∧ db'.challenges = db.challenges
      ∧ (∀ r, findRun db p.run = some r →
          db'.collected = check_and_collect_artifacts g db.items r.athlete
            p.latitude p.longitude db.collected) := by
  have hex : ∃ r, findRun db p.run = some r := by
    unfold validatePosition at h
    rcases hf : findRun db p.run with _ | r
    · rw [hf] at h
      cases h
    · exact ⟨r, rfl⟩
  rcases hex with ⟨r, hf⟩
  refine ⟨perform_create g db p, ?_, ?_, ?_, ?_, ?_⟩
  · unfold createPosition
    rw [if_pos h]
  · unfold perform_create
    rw [hf]
  · unfold perform_create
    rw [hf]
  · unfold perform_create
    rw [hf]
  · intro r0 h0
    rw [hf] at h0
    have : r = r0 := by injection h0
    rw [← this]
    unfold perform_create
    rw [hf]

/-- C4: start returns 404 for an unknown run and 400 unless the status is
init, otherwise 200 with the status set to in_progress; finish returns 404
for an unknown run and 400 unless the status is in_progress, otherwise 200
with the status set to finished; and under unique run ids every run's status
is either unchanged or advanced one step along init, in_progress, finished. -/
theorem run_state_machine_transitions (g : Geo) (db : DB) (i : ℕ)
    (hnd : (db.runs.map Run.id).Nodup) :
    (findRun db i = none → startRun db i = (404, db) ∧ finishRun g db i = (404, db))
  ∧ (∀ r, findRun db i = some r → r.status ≠ RunStatus.init → startRun db i = (400, db))
  ∧ (∀ r, findRun db i = some r → r.status = RunStatus.init →
      (startRun db i).1 = 200
        ∧ findRun (startRun db i).2 i = some { r with status := RunStatus.in_progress })
  ∧ (∀ r, findRun db i = some r → r.status ≠ RunStatus.in_progress →
      finishRun g db i = (400, db))
  ∧ (∀ r, findRun db i = some r → r.status = RunStatus.in_progress →
      (finishRun g db i).1 = 200
        ∧ ∃ r', findRun (finishRun g db i).2 i = some r'
            ∧ r'.status = RunStatus.finished)
  ∧ (∀ r', r' ∈ (startRun db i).2.runs → ∃ r, r ∈ db.runs ∧ r'.id = r.id ∧
      (r'.status = r.status ∨ (r.status = RunStatus.init ∧ r'.status = RunStatus.in_progress)))
  ∧ (∀ r', r' ∈ (finishRun g db i).2.runs → ∃ r, r ∈ db.runs ∧ r'.id = r.id ∧
      (r'.status = r.status ∨ (r.status = RunStatus.in_progress ∧ r'.status = RunStatus.finished))) := by
  refine ⟨?_, ?_, ?_, ?_, ?_, ?_, ?_⟩
  · intro h
    exact ⟨startRun_not_found h, finishRun_not_found h⟩
  · intro r hfind hst
    exact startRun_found_not_init hfind hst
  · intro r hfind hst
    rw [startRun_found_init hfind hst]
    refine ⟨rfl, ?_⟩
    have hid : r.id = i := findRun_id hfind
    have h1 : findRun (saveRun db { r with status := RunStatus.in_progress }) i
        = some { r with status := RunStatus.in_progress } :=
      findRun_saveRun { r with status := RunStatus.in_progress } hfind hid
    exact h1
  · intro r hfind hst
    exact finishRun_found_not_in_progress hfind hst
  · intro r hfind hst
    rw [finishRun_found_in_progress hfind hst]
    refine ⟨rfl, runFinal g db r i, ?_, rfl⟩
    have hid : r.id = i := findRun_id hfind
    have h1 : findRun (saveRun db { r with status := RunStatus.finished }) i
        = some { r with status := RunStatus.finished } :=
      findRun_saveRun { r with status := RunStatus.finished } hfind hid
    have h2 : findRun (saveRun (saveRun db { r with status := RunStatus.finished })
          (runFinal g db r i)) i = some (runFinal g db r i) :=
      findRun_saveRun (runFinal g db r i) h1 hid
    exact h2
  · intro r' hr'
    rcases hf : findRun db i with _ | run
    · rw [startRun_not_found hf] at hr'
      exact ⟨r', hr', rfl, Or.inl rfl⟩
    · by_cases hst : run.status = RunStatus.init
      · rw [startRun_found_init hf hst] at hr'
        simp only [saveRun] at hr'
        rcases mem_map_replace hr' with ⟨x, hx, ⟨hxid, heq⟩ | ⟨hxid, heq⟩⟩
        · have hxr : x = run :=
            run_eq_of_id_eq hnd hx (findRun_mem hf) hxid
          refine ⟨x, hx, ?_, Or.inr ⟨?_, ?_⟩⟩
          · rw [heq]
            exact hxid.symm
          · rw [hxr]
            exact hst
          · rw [heq]
        · refine ⟨x, hx, ?_, Or.inl ?_⟩
          · rw [heq]
          · rw [heq]
      · rw [startRun_found_not_init hf hst] at hr'
        exact ⟨r', hr', rfl, Or.inl rfl⟩
  · intro r' hr'
    rcases hf : findRun db i with _ | run
    · rw [finishRun_not_found hf] at hr'
      exact ⟨r', hr', rfl, Or.inl rfl⟩
    · by_cases hst : run.status = RunStatus.in_progress
      · rw [finishRun_found_in_progress hf hst] at hr'
        rw [show ((200, finishState g db run i) : ℕ × DB).2 = finishState g db run i from rfl] at hr'
        rw [finishState_runs g db run i (findRun_id hf)] at hr'
        rcases mem_map_replace hr' with ⟨x, hx, ⟨hxid, heq⟩ | ⟨hxid, heq⟩⟩
        · have hxr : x = run := by
            apply run_eq_of_id_eq hnd hx (findRun_mem hf)
            rw [hxid, findRun_id hf]
          refine ⟨x, hx, ?_, Or.inr ⟨?_, ?_⟩⟩
          · have hid : run.id = i := findRun_id hf
            rw [heq, hxid]
            exact hid
          · rw [hxr]
            exact hst
          · rw [heq]
            exact rfl
        · refine ⟨x, hx, ?_, Or.inl ?_⟩
          · rw [heq]
          · rw [heq]
      · rw [finishRun_found_not_in_progress hf hst] at hr'
        exact ⟨r', hr', rfl, Or.inl rfl⟩

/-- C10: a successful finish persists the new status and the recomputed
distance before the finished-run history is read, so the finished-run count
the rules see is the old count plus one, the just-finished run appears in it
with its fresh distance, and a tenth finish grants the ten-runs challenge. -/
theorem finish_persists_before_rule_read (g : Geo) (db : DB) (i : ℕ) (r : Run)
    (hnd : (db.runs.map Run.id).Nodup)
    (hfind : findRun db i = some r)
    (hst : r.status = RunStatus.in_progress) :
    (finishedOf (finishRun g db i).2 r.athlete).length
        = (finishedOf db r.athlete).length + 1
  ∧ (∃ r' ∈ finishedOf (finishRun g db i).2 r.athlete,
        r'.id = i ∧ r'.distance = calculate_run_distance g (positionsOf db i))
  ∧ ((finishedOf db r.athlete).length = 9 →
        (ten_runs_name, r.athlete) ∈ (finishRun g db i).2.challenges) := by
  rw [finishRun_found_in_progress hfind hst]
  rw [show ((200, finishState g db r i) : ℕ × DB).2 = finishState g db r i from rfl]
  have hid : r.id = i := findRun_id hfind
  have hruns := finishState_runs g db r i hid
  have hPr : (fun x => decide (x.athlete = r.athlete ∧ x.status = RunStatus.finished)) r = false := by
    simp [hst]
  have hPr2 : (fun x => decide (x.athlete = r.athlete ∧ x.status = RunStatus.finished))
      (runFinal g db r i) = true := by
    simp [runFinal]
  have hlen : (finishedOf (finishState g db r i) r.athlete).length
      = (finishedOf db r.athlete).length + 1 := by
    unfold finishedOf
    rw [hruns]
    exact filter_length_replace _ i r (runFinal g db r i) db.runs hnd
      (findRun_mem hfind) hid hPr hPr2
  refine ⟨hlen, ?_, ?_⟩
  · refine ⟨runFinal g db r i, ?_, hid, rfl⟩
    unfold finishedOf
    rw [hruns]
    apply List.mem_filter.mpr
    refine ⟨?_, hPr2⟩
    apply List.mem_map.mpr
    exact ⟨r, findRun_mem hfind, by rw [if_pos hid]⟩
  · intro h9
    rw [finishState_challenges]
    apply (mem_create_fifty_iff _ _ _ _).mpr
    left
    apply (mem_create_ten_iff _ _ _ _).mpr
    right
    refine ⟨rfl, ?_⟩
    rw [hlen, h9]

/-- C1 (amended): a successful finish evaluates exactly the two aggregate
rules over the athlete's finished-run history as re-read after the finish is
persisted: a challenge is present afterwards iff it was present before, or it
is the ten-runs grant with a finished-run count of exactly 10, or the
fifty-kilometre grant with a distance sum of at least 50; in particular the
2-kilometres-in-10-minutes rule is never applied by the finish path. -/
theorem finish_evaluates_only_aggregate_rules (g : Geo) (db : DB) (i : ℕ) (r : Run)
    (hfind : findRun db i = some r) (hst : r.status = RunStatus.in_progress)
    (c : String × ℕ) :
    c ∈ (finishRun g db i).2.challenges
      ↔ c ∈ db.challenges
        ∨ (c = (ten_runs_name, r.athlete)
            ∧ (finishedOf (finishRun g db i).2 r.athlete).length = 10)
        ∨ (c = (fifty_km_name, r.athlete)
            ∧ 50 ≤ ((finishedOf (finishRun g db i).2 r.athlete).map Run.distance).sum) := by
  rw [finishRun_found_in_progress hfind hst]
  rw [show ((200, finishState g db r i) : ℕ × DB).2 = finishState g db r i from rfl]
  rw [finishState_challenges]
  rw [mem_create_fifty_iff, mem_create_ten_iff]
  tauto

/-- C1 counterexample: finishing a run that afterwards satisfies the fast-2K
condition (distance 3 km at 300 s) leaves the challenge store empty — had the
2-kilometres-in-10-minutes rule been evaluated over the just-finished run, its
grant would be present, as the last conjunct shows. -/
theorem fast_2k_rule_not_evaluated_cex :
    (finishRun gTest exDb1 0).1 = 200
  ∧ (finishRun gTest exDb1 0).2.challenges = []
  ∧ (findRun (finishRun gTest exDb1 0).2 0).map Run.distance = some 3
  ∧ (findRun (finishRun gTest exDb1 0).2 0).map Run.run_time_seconds = some 300
  ∧ create_challenge_2_kilometers_in_10_minutes 3 (runFinal gTest exDb1 exR1 0) []
      = [(fast_2k_name, 3)] := by
  norm_num [finishRun, finishState, findRun, saveRun, positionsOf, finishedOf,
    calculate_run_distance, pairwiseSum, roundTo, gTest, exDb1, exR1, exQ0, exQ1,
    create_challenge_ten_runs, create_challenge_50_kilometers,
    create_challenge_2_kilometers_in_10_minutes, getOrCreate, runFinal]

/-- C2: at a run whose positions are inserted out of capture-timestamp order,
the finish path persists the insertion-order route distance (21 under the
test metric) while the timestamp-ordered route distance required by the spec
is 11 — the finish read performs no sort. -/
theorem finish_distance_uses_insertion_order :
    (findRun (finishRun gTest exDb2 0).2 0).map Run.distance = some 21
  ∧ specTimestampOrderedDistance gTest exDb2 0 = 11
  ∧ (21 : ℚ) ≠ 11 := by
  norm_num [finishRun, finishState, findRun, saveRun, positionsOf, finishedOf,
    calculate_run_distance, pairwiseSum, roundTo, gTest, exDb2, exR2, pa2, pb2, pc2,
    create_challenge_ten_runs, create_challenge_50_kilometers, getOrCreate,
    specTimestampOrderedDistance, sortByTime, insertByTime, timeLe]

/-- C3 counterexample: ingesting a position stores it with its submitted
speed and distance (both 0), although the metrics functions at the same point
return 50 (speed, m/s) and 3 (cumulative km) — the ingest path never
recomputes or persists them. -/
theorem ingest_does_not_persist_metrics_cex :
    ((createPosition gTest exDb3 exQ1).bind (fun s => s.positions.getLast?)).map Position.speed
        = some 0
  ∧ ((createPosition gTest exDb3 exQ1).bind (fun s => s.positions.getLast?)).map Position.distance
        = some 0
  ∧ calculate_speed gTest exDb3 0 60 3 0 = 50
  ∧ calculate_cumulative_distance gTest exDb3 0 3 0 = 3
  ∧ ((50 : ℚ) ≠ 0 ∧ (3 : ℚ) ≠ 0) := by
  norm_num [createPosition, validatePosition, perform_create, check_and_collect_artifacts,
    findRun, positionsOf, exDb3, exR3, exQ0, exQ1, calculate_speed, latestByTime, laterTime,
    calculate_cumulative_distance, sortByTime, insertByTime, timeLe, pairwiseSum, roundTo, gTest]

theorem route_distance_spec_witness :
    calculate_run_distance gTest [exQ0] = 0 ∧ 0 ≤ calculate_run_distance gTest [exQ0, exQ1] :=
  ⟨(route_distance_spec gTest gTest_nonneg [exQ0]).2.1 (by simp),
   (route_distance_spec gTest gTest_nonneg [exQ0, exQ1]).2.2⟩

theorem ten_runs_challenge_exact_and_unique_witness :
    (ten_runs_name, 0) ∈ create_challenge_ten_runs 0 tenF []
  ∧ create_challenge_ten_runs 0 [] [] = [] :=
  ⟨(ten_runs_challenge_exact_and_unique 0 tenF []).1.mpr (Or.inr (by simp [tenF])),
   (ten_runs_challenge_exact_and_unique 0 [] []).2.1 (by simp)⟩

theorem speed_guards_and_formula_witness :
    calculate_speed gTest exDb3 0 60 3 0
      = roundTo 2 (1000 * gTest (exQ0.latitude, exQ0.longitude) (3, 0) / (60 - 0))
  ∧ 0 ≤ calculate_speed gTest exDb3 0 60 3 0 := by
  have h := speed_guards_and_formula gTest gTest_nonneg exDb3 0 60 3 0
  refine ⟨?_, h.2.2⟩
  exact (h.2.1 exQ0 0 (by simp [latestByTime, positionsOf, exDb3, exQ0]) rfl).2 (by norm_num)

theorem position_validation_gate_witness :
    (createPosition gTest dbW pWT).isSome = true := by
  have h := position_validation_gate gTest dbW pWT rW1 (by simp [findRun, dbW, rW0, rW1, pWT])
  exact h.1.mpr ⟨rfl, by simp [pWT], by norm_num [pWT], by norm_num [pWT],
    by norm_num [pWT], by norm_num [pWT]⟩

/-- C8 counterexample: a position with in-range coordinates targeting an
in_progress run but carrying no capture timestamp is rejected, although the
claim says such a request passes validation and is created: the explicitly
declared DateTimeField of the serializer is required. -/
theorem position_missing_timestamp_rejected_cex :
    createPosition gTest dbW pW = none
  ∧ (findRun dbW pW.run).map Run.status = some RunStatus.in_progress
  ∧ (-90 ≤ pW.latitude ∧ pW.latitude ≤ 90 ∧ -180 ≤ pW.longitude ∧ pW.longitude ≤ 180)
  ∧ pW.date_time = none := by
  norm_num [createPosition, validatePosition, findRun, dbW, rW0, rW1, pW]

theorem ingest_appends_position_unchanged_witness :
    (createPosition gTest dbW pWT).map DB.positions = some (dbW.positions ++ [pWT]) := by
  obtain ⟨db', h1, h2, h3, h4, h5⟩ := ingest_appends_position_unchanged gTest dbW pWT
    (by norm_num [validatePosition, findRun, dbW, rW0, rW1, pWT])
  rw [h1, Option.map_some', h2]

theorem run_state_machine_transitions_witness :
    (startRun dbW 0).1 = 200 ∧ (finishRun gTest dbW 1).1 = 200 ∧ startRun dbW 5 = (404, dbW) := by
  have h0 := run_state_machine_transitions gTest dbW 0 (by simp [dbW, rW0, rW1])
  have h1 := run_state_machine_transitions gTest dbW 1 (by simp [dbW, rW0, rW1])
  have h5 := run_state_machine_transitions gTest dbW 5 (by simp [dbW, rW0, rW1])
  refine ⟨(h0.2.2.1 rW0 ?_ rfl).1, (h1.2.2.2.2.1 rW1 ?_ rfl).1, (h5.1 ?_).1⟩
  · simp [findRun, dbW, rW0, rW1]
  · simp [findRun, dbW, rW0, rW1]
  · simp [findRun, dbW, rW0, rW1]

theorem finish_persists_before_rule_read_witness :
    (ten_runs_name, 2) ∈ (finishRun gTest w10db 9).2.challenges := by
  have h := finish_persists_before_rule_read gTest w10db 9 wTen
    (by simp [w10db, wfRun, wTen]) (by simp [findRun, w10db, wfRun, wTen]) rfl
  exact h.2.2 (by simp [finishedOf, w10db, wfRun, wTen])

theorem finish_evaluates_only_aggregate_rules_witness :
    (fast_2k_name, 3) ∉ (finishRun gTest exDb1 0).2.challenges := by
  have h := finish_evaluates_only_aggregate_rules gTest exDb1 0 exR1
    (by simp [findRun, exDb1, exR1]) rfl (fast_2k_name, 3)
  intro hmem
  rcases h.mp hmem with h1 | ⟨h2, _⟩ | ⟨h2, _⟩
  · simp [exDb1] at h1
  · have hne : fast_2k_name ≠ ten_runs_name := by decide
    exact hne (congrArg Prod.fst h2)
  · have hne : fast_2k_name ≠ fifty_km_name := by decide
    exact hne (congrArg Prod.fst h2)

end ProjectRun
